import Mathlib

/-!
# Verification of `simple_singleton` (`src/simple_singleton/singleton.py`)

A shallow embedding of the repository's singleton decorator.  The embedding
models the fragment of the Python object system that the decorator relies on:

* classes are records carrying a name, a method-resolution order (`mro`,
  the class itself first), and the three attributes the decorator touches
  (`__new__`, `__init__`, `__singleton_flag__`);
* each application of the decorator allocates a closure cell holding the
  configuration, the captured original `__new__`/`__init__`, the `_instance`
  slot and the `_is_initialized` flag (lines 160-165 of `singleton.py`);
* instances are records with an identity (their index in the world's
  instance table), their concrete class, and a field store;
* exceptions are modelled by threading the world through an `Except`,
  so the side effects performed before a raise persist, as in Python.

`typeCall` models `type.__call__` (construct via `__new__`, then run
`__init__` of the returned object's type when it is an instance of the
called class), `callNewAttr` models the decorator's `__new__` closure
(lines 187-208), `callInitAttr` the `__init__` closure (lines 210-216),
`singletonDecorate` the `decorator` body (lines 160-228) and
`is_singleton` the query at lines 237-261.
-/

namespace SimpleSingleton

/-- The three configuration options of the decorator, fixed at decoration
time (`thread_safe`, `allow_subclass`, `allow_reassignment`). -/
structure Config where
  thread_safe : Bool
  allow_subclass : Bool
  allow_reassignment : Bool
deriving Repr, DecidableEq

/-- What a class's `__new__` attribute can hold in the modelled fragment:
the inherited `object.__new__`, or the bound method installed by a
decoration (line 225), identified by its closure cell. -/
inductive NewAttr where
  | objectNew : NewAttr
  | decorated : Nat → NewAttr
deriving Repr, DecidableEq

/-- The per-call initialization behaviour of a user-written `__init__`:
given the call's arguments and the instance's current fields, produce the
new fields (e.g. `def __init__(self, v): self.value = v`). -/
def InitFun : Type := List Int → List Int → List Int

/-- What a class's `__init__` attribute can hold: the inherited no-op
`object.__init__`, a user-written `__init__`, or the gating closure
installed by a decoration with `allow_reassignment=False` (line 224). -/
inductive InitAttr where
  | objectInit : InitAttr
  | userInit : InitFun → InitAttr
  | decorated : Nat → InitAttr

/-- A Python class in the modelled fragment: its `__name__`, its method
resolution order (itself first, then its ancestors), and its own (not
inherited) `__new__`, `__init__` and `__singleton_flag__` attributes. -/
structure PyClass where
  name : String
  mro : List Nat
  new_attr : Option NewAttr
  init_attr : Option InitAttr
  flag : Option String

/-- One closure cell produced by an application of `decorator`
(`singleton.py` lines 160-165): the configuration, the decorated class,
the captured `_original_new` and `_original_init`, and the mutable
`_instance` / `_is_initialized` state. -/
structure Cell where
  config : Config
  original_cls : Nat
  original_new : NewAttr
  original_init : InitAttr
  _instance : Option Nat
  _is_initialized : Bool

/-- A live instance: the class it was allocated for (`object.__new__(cls)`)
and its attribute store. Its identity is its index in `World.insts`. -/
structure Inst where
  cls : Nat
  fields : List Int

/-- The whole mutable state: the class table, the decoration closure
cells, and the instance table. -/
structure World where
  classes : List PyClass
  cells : List Cell
  insts : List Inst

def emptyWorld : World := ⟨[], [], []⟩

def defaultPyClass : PyClass := ⟨"", [], none, none, none⟩

def defaultCell : Cell := ⟨⟨false, false, false⟩, 0, .objectNew, .objectInit, none, false⟩

def defaultInst : Inst := ⟨0, []⟩

def getClass (w : World) (c : Nat) : PyClass := w.classes.getD c defaultPyClass

def getCell (w : World) (cid : Nat) : Cell := w.cells.getD cid defaultCell

def getInst (w : World) (i : Nat) : Inst := w.insts.getD i defaultInst

def className (w : World) (c : Nat) : String := (getClass w c).name

/-- Attribute lookup along a method resolution order for `__new__`;
falls back to `object.__new__` like Python's lookup reaching `object`. -/
def getattrNewAux (w : World) : List Nat → NewAttr
  | [] => .objectNew
  | c :: rest =>
    match (getClass w c).new_attr with
    | some a => a
    | none => getattrNewAux w rest

/-- `cls.__new__` as seen by `type.__call__` and by line 164. -/
def getattrNew (w : World) (c : Nat) : NewAttr := getattrNewAux w (getClass w c).mro

/-- Attribute lookup along an mro for `__init__`; falls back to the no-op
`object.__init__`. -/
def getattrInitAux (w : World) : List Nat → InitAttr
  | [] => .objectInit
  | c :: rest =>
    match (getClass w c).init_attr with
    | some a => a
    | none => getattrInitAux w rest

/-- `cls.__init__` as seen by `type.__call__` and by line 165. -/
def getattrInit (w : World) (c : Nat) : InitAttr := getattrInitAux w (getClass w c).mro

/-- `getattr(cls, "__singleton_flag__", None)` (line 173 and line 254):
first class in the mro carrying the marker, else `None`. -/
def getattrFlagAux (w : World) : List Nat → Option String
  | [] => none
  | c :: rest =>
    match (getClass w c).flag with
    | some f => some f
    | none => getattrFlagAux w rest

def getattrFlag (w : World) (c : Nat) : Option String :=
  getattrFlagAux w (getClass w c).mro

/-- `isinstance(obj-of-class o, class c)`: `c` occurs in `o`'s mro. -/
def isInstanceOf (w : World) (o c : Nat) : Bool := (getClass w o).mro.contains c

def setClassNewAttr (w : World) (c : Nat) (a : Option NewAttr) : World :=
  { w with classes := w.classes.set c { getClass w c with new_attr := a } }

def setClassInitAttr (w : World) (c : Nat) (a : Option InitAttr) : World :=
  { w with classes := w.classes.set c { getClass w c with init_attr := a } }

def setClassFlag (w : World) (c : Nat) (f : Option String) : World :=
  { w with classes := w.classes.set c { getClass w c with flag := f } }

def setCellSlot (w : World) (cid : Nat) (v : Option Nat) : World :=
  { w with cells := w.cells.set cid { getCell w cid with _instance := v } }

def setCellInitialized (w : World) (cid : Nat) (b : Bool) : World :=
  { w with cells := w.cells.set cid { getCell w cid with _is_initialized := b } }

def setInstFields (w : World) (i : Nat) (fs : List Int) : World :=
  { w with insts := w.insts.set i { getInst w i with fields := fs } }

/-- `object.__new__(cls)`: allocate a fresh, fully constructed instance of
`cls` (its identity is the previous length of the instance table). -/
def objectNewRun (w : World) (c : Nat) : World × Nat :=
  ({ w with insts := w.insts ++ [⟨c, []⟩] }, w.insts.length)

/-- A positional argument of a `__new__` call: either a class object
(the `cls` arguments threaded through at lines 190, 195, 203) or one of
the caller's ordinary arguments. -/
inductive PyVal where
  | cls : Nat → PyVal
  | int : Int → PyVal
deriving Repr, DecidableEq

/-- Invoke a `__new__` attribute with the given argument list (whose head
is the class the call is for, matching `cls = args[0]` at line 190).

The `decorated` branch is the closure `__new__` of `singleton.py` lines
187-208, with `_create_instance` (lines 181-185) inlined at its two call
sites: if the calling class is not the decorated class, run
`_check_subclass` (lines 167-179) and, on success, create a new instance
and assign it into this cell's `_instance` slot (line 195); otherwise
create the instance on first call — under `thread_safe` via the
double-checked re-read of the slot (lines 199-205) — and return the
slot's instance thereafter (line 208). -/
def callNewAttr : Nat → World → NewAttr → List PyVal → World × Except String Nat
  | 0, w, _, _ => (w, .error "RecursionError")
  | _fuel + 1, w, .objectNew, args =>
    match args with
    | .cls c :: _ =>
      let p := objectNewRun w c
      (p.1, .ok p.2)
    | _ => (w, .error "TypeError: object.__new__ expects a class")
  | fuel + 1, w, .decorated cellId, args =>
    match args with
    | .cls cls :: _ =>
      let cell := getCell w cellId
      -- `_create_instance(cls, *args)`, lines 181-185: dispatch on the
      -- captured `_original_new`.
      let create : World → World × Except String Nat := fun w =>
        match cell.original_new with
        | .objectNew =>
          let p := objectNewRun w cls
          (p.1, .ok p.2)
        | na => callNewAttr fuel w na (.cls cls :: args)
      if cls ≠ cell.original_cls then
        -- `_check_subclass(cls)`, lines 167-179
        if ¬ cell.config.allow_subclass then
          (w, .error ("Singleton class " ++ className w cell.original_cls
            ++ " cannot be inherited"))
        else if getattrFlag w cls ≠ some (className w cls) then
          (w, .error ("Subclass " ++ className w cls ++ " must also be a singleton"))
        else
          -- lines 195-196: `_instance = _create_instance(...); return _instance`
          match create w with
          | (w', .ok i) => (setCellSlot w' cellId (some i), .ok i)
          | (w', .error e) => (w', .error e)
      else
        match cell._instance with
        | some i => (w, .ok i)
        | none =>
          if cell.config.thread_safe then
            -- `with _lock:` re-check, lines 200-205 (sequential execution:
            -- the slot is unchanged between the two reads)
            match (getCell w cellId)._instance with
            | some i => (w, .ok i)
            | none =>
              match create w with
              | (w', .ok i) => (setCellSlot w' cellId (some i), .ok i)
              | (w', .error e) => (w', .error e)
          else
            match create w with
            | (w', .ok i) => (setCellSlot w' cellId (some i), .ok i)
            | (w', .error e) => (w', .error e)
    | _ => (w, .error "TypeError: __new__ expects a class as first argument")

/-- Invoke an `__init__` attribute on instance `self` with the caller's
arguments.  The `decorated` branch is the closure `__init__` of lines
210-216: run the captured `_original_init` only when `_is_initialized` is
still false, then set the flag. -/
def callInitAttr : Nat → World → InitAttr → Nat → List Int → World × Except String Unit
  | 0, w, _, _, _ => (w, .error "RecursionError")
  | _fuel + 1, w, .objectInit, _, _ => (w, .ok ())
  | _fuel + 1, w, .userInit f, self, args =>
    (setInstFields w self (f args (getInst w self).fields), .ok ())
  | fuel + 1, w, .decorated cellId, self, args =>
    let cell := getCell w cellId
    if cell._is_initialized then (w, .ok ())
    else
      match callInitAttr fuel w cell.original_init self args with
      | (w', .ok _) => (setCellInitialized w' cellId true, .ok ())
      | (w', .error e) => (w', .error e)

/-- `type.__call__(c, *args)`: run `c.__new__(c, *args)`; if the result is
an instance of `c`, run `type(result).__init__(result, *args)`; return the
result.  An exception propagates with the side effects already performed. -/
def typeCall (fuel : Nat) (w : World) (c : Nat) (args : List Int) :
    World × Except String Nat :=
  match callNewAttr fuel w (getattrNew w c) (PyVal.cls c :: args.map PyVal.int) with
  | (w', .error e) => (w', .error e)
  | (w', .ok obj) =>
    let ocls := (getInst w' obj).cls
    if isInstanceOf w' ocls c then
      match callInitAttr fuel w' (getattrInit w' ocls) obj args with
      | (w'', .error e) => (w'', .error e)
      | (w'', .ok _) => (w'', .ok obj)
    else (w', .ok obj)

/-- A value the decorator may be applied to: a class, a plain function, or
some other non-class object. -/
inductive PyObj where
  | cls : Nat → PyObj
  | func : PyObj
  | intVal : Int → PyObj
deriving Repr, DecidableEq

/-- The body of `decorator` (`singleton.py` lines 160-228): on a class,
capture `_original_new` / `_original_init` (lines 164-165), allocate the
closure cell, and — after the `isinstance` guard at line 218, which
performs no mutation when it fails — install the `__init__` interception
when reassignment is not allowed (lines 223-224), install `__new__`
(line 225) and write the `__singleton_flag__` marker (line 226). -/
def singletonDecorate (w : World) (thread_safe allow_subclass allow_reassignment : Bool)
    (target : PyObj) : World × Except String PyObj :=
  match target with
  | .cls cid =>
    let origNew := getattrNew w cid
    let origInit := getattrInit w cid
    let cellId := w.cells.length
    let w1 := { w with cells := w.cells ++
      [⟨⟨thread_safe, allow_subclass, allow_reassignment⟩, cid, origNew, origInit,
        none, false⟩] }
    let w2 := if allow_reassignment then w1
      else setClassInitAttr w1 cid (some (.decorated cellId))
    let w3 := setClassNewAttr w2 cid (some (.decorated cellId))
    let w4 := setClassFlag w3 cid (some (getClass w cid).name)
    (w4, .ok (.cls cid))
  | _ => (w, .error "singleton decorator can only be applied to classes")

/-- Declare a new class with the given name, optional single base class,
and optional user-written `__init__`.  Its mro is itself followed by the
base's mro, as in Python single inheritance. -/
def declareClass (w : World) (name : String) (base : Option Nat)
    (init : Option InitFun) : World × Nat :=
  let cid := w.classes.length
  let mro := cid :: (match base with
    | some b => (getClass w b).mro
    | none => [])
  ({ w with classes := w.classes ++ [⟨name, mro, none, init.map InitAttr.userInit, none⟩] },
   cid)

/-- `is_singleton` (`singleton.py` lines 237-261): false on non-classes,
false when no `__singleton_flag__` is found, otherwise compare the flag
with the class's own name. -/
def is_singleton (w : World) (target : PyObj) : Bool :=
  match target with
  | .cls c =>
    match getattrFlag w c with
    | none => false
    | some f => f == className w c
  | _ => false

/-- Run a sequence of construction calls on class `c`, threading the world
and collecting each call's result. -/
def runCalls (fuel : Nat) (w : World) (c : Nat) : List (List Int) →
    World × List (Except String Nat)
  | [] => (w, [])
  | a :: rest =>
    match typeCall fuel w c a with
    | (w', r) =>
      match runCalls fuel w' c rest with
      | (w'', rs) => (w'', r :: rs)

/-!
## Helper lemmas for the subclass branch

These expose the two outcomes of `_check_subclass` under
`allow_subclass=True` (lines 173-179) for worlds containing symbolic class
names, where the flag/name string comparison does not reduce by itself.
-/

theorem callNewAttr_subclass_reject (fuel : Nat) (w : World) (cellId c : Nat)
    (rest : List PyVal)
    (hne : c ≠ (getCell w cellId).original_cls)
    (hsub : (getCell w cellId).config.allow_subclass = true)
    (hflag : getattrFlag w c ≠ some (className w c)) :
    callNewAttr (fuel + 1) w (.decorated cellId) (.cls c :: rest) =
      (w, .error ("Subclass " ++ className w c ++ " must also be a singleton")) := by
  simp only [callNewAttr]
  rw [if_pos hne, if_neg (not_not_intro hsub), if_pos hflag]

/-- A construction call routed to a decorated `__new__` whose cell belongs
to another class, where the calling class does not carry its own matching
marker, raises `Subclass ... must also be a singleton` and leaves the
world unchanged. -/
theorem typeCall_subclass_not_singleton (fuel : Nat) (w : World) (c cellId : Nat)
    (args : List Int)
    (hnew : getattrNew w c = .decorated cellId)
    (hne : c ≠ (getCell w cellId).original_cls)
    (hsub : (getCell w cellId).config.allow_subclass = true)
    (hflag : getattrFlag w c ≠ some (className w c)) :
    typeCall (fuel + 1) w c args =
      (w, .error ("Subclass " ++ className w c ++ " must also be a singleton")) := by
  have h1 := callNewAttr_subclass_reject fuel w cellId c (args.map PyVal.int) hne hsub hflag
  simp only [typeCall, hnew, h1]

/-- The create-and-return step of the subclass branch (line 195), exposed
for rewriting: the dispatch of `_create_instance` on the captured
`_original_new`. -/
def subclassCreate (fuel : Nat) (w : World) (cellId c : Nat) (rest : List PyVal) :
    World × Except String Nat :=
  match (getCell w cellId).original_new with
  | NewAttr.objectNew => ((objectNewRun w c).1, Except.ok (objectNewRun w c).2)
  | na => callNewAttr fuel w na (PyVal.cls c :: PyVal.cls c :: rest)

theorem callNewAttr_subclass_allowed (fuel : Nat) (w : World) (cellId c : Nat)
    (rest : List PyVal)
    (hne : c ≠ (getCell w cellId).original_cls)
    (hsub : (getCell w cellId).config.allow_subclass = true)
    (hflag : getattrFlag w c = some (className w c)) :
    callNewAttr (fuel + 1) w (.decorated cellId) (.cls c :: rest) =
      (match subclassCreate fuel w cellId c rest with
       | (w', Except.ok i) => (setCellSlot w' cellId (some i), Except.ok i)
       | (w', Except.error e) => (w', Except.error e)) := by
  simp only [callNewAttr, subclassCreate]
  rw [if_pos hne, if_neg (not_not_intro hsub), if_neg (not_not_intro hflag)]

/-- A construction call routed to a decorated `__new__` whose cell belongs
to another class, where the calling class does carry its own matching
marker, proceeds: a new instance is created, written into the cell's
slot, and handed to initialization. -/
theorem typeCall_subclass_allowed (fuel : Nat) (w : World) (c cellId : Nat)
    (args : List Int)
    (hnew : getattrNew w c = .decorated cellId)
    (hne : c ≠ (getCell w cellId).original_cls)
    (hsub : (getCell w cellId).config.allow_subclass = true)
    (hflag : getattrFlag w c = some (className w c)) :
    typeCall (fuel + 1) w c args =
      (match subclassCreate fuel w cellId c (args.map PyVal.int) with
       | (w', Except.ok i) =>
         let w2 := setCellSlot w' cellId (some i)
         let ocls := (getInst w2 i).cls
         if isInstanceOf w2 ocls c then
           match callInitAttr (fuel + 1) w2 (getattrInit w2 ocls) i args with
           | (w3, Except.error e) => (w3, Except.error e)
           | (w3, Except.ok _) => (w3, Except.ok i)
         else (w2, Except.ok i)
       | (w', Except.error e) => (w', Except.error e)) := by
  have h1 := callNewAttr_subclass_allowed fuel w cellId c (args.map PyVal.int) hne hsub hflag
  simp only [typeCall, hnew, h1]
  rcases hcr : subclassCreate fuel w cellId c (args.map PyVal.int) with ⟨w', r⟩
  cases r <;> rfl

/-!
## C1-C3: the subclass branch writes into the parent's slot

`__new__`'s subclass branch (`singleton.py` line 195) executes
`_instance = _create_instance(cls, *args)` — it assigns the freshly
created subclass instance into the *parent's* closure slot before
returning it.  The concrete runs below exhibit the consequences.
The shared scenario: `@singleton(allow_subclass=True) class Parent`,
then `@singleton class Child(Parent)`, both with default options
otherwise. -/
def parentChildWorld (pn cn : String) : World :=
  let w1 := (declareClass emptyWorld pn none none).1
  let w2 := (singletonDecorate w1 false true false (.cls 0)).1
  let w3 := (declareClass w2 cn (some 0) none).1
  (singletonDecorate w3 false false false (.cls 1)).1

def c1Call1 : World × Except String Nat :=
  typeCall 10 (parentChildWorld "Base" "Derived") 0 []
def c1Call2 : World × Except String Nat := typeCall 10 c1Call1.1 1 []
def c1Call3 : World × Except String Nat := typeCall 10 c1Call2.1 0 []

/-- C1: the claim fails on the code.  With `Base` decorated
(`allow_subclass=True`) and `Derived(Base)` decorated, the sequence
`Base(); Derived(); Base()` returns instance `0` from the first call on
`Base` but instance `1` (the `Derived` instance) from the second call on
`Base`: the parent's slot was replaced by the interleaved subclass
construction, so not every call on `Base` returns the same reference. -/
theorem c1_parent_call_not_stable_under_subclass_interleaving :
    c1Call1.2 = Except.ok 0 ∧ c1Call3.2 = Except.ok 1 ∧ c1Call1.2 ≠ c1Call3.2 :=
  ⟨rfl, rfl, by
    simp only [show c1Call1.2 = Except.ok 0 from rfl,
      show c1Call3.2 = Except.ok 1 from rfl]
    simp⟩

def c2Call1 : World × Except String Nat :=
  typeCall 10 (parentChildWorld "Parent" "Child") 0 []
def c2Call2 : World × Except String Nat := typeCall 10 c2Call1.1 1 []

/-- C2: the claim fails on the code.  After `Parent()` the parent's slot
holds instance `0`; the call `Child()` does create and return a new,
independent instance `1` of the subclass, but it also overwrites the
parent's Instance Slot with that subclass instance (line 195), so the
call does touch the parent's slot. -/
theorem c2_subclass_call_touches_parent_slot :
    (getCell c2Call1.1 0)._instance = some 0 ∧
    c2Call2.2 = Except.ok 1 ∧
    (getInst c2Call2.1 1).cls = 1 ∧
    (getCell c2Call2.1 0)._instance = some 1 :=
  ⟨rfl, rfl, rfl, rfl⟩

def c3Call1 : World × Except String Nat :=
  typeCall 10 (parentChildWorld "Base" "Derived") 1 []
def c3Call2 : World × Except String Nat := typeCall 10 c3Call1.1 0 []

/-- C3: the claim fails on the code in the subclass-first order.  With
`Base` decorated (`allow_subclass=True`) and `Derived(Base)` decorated,
calling `Derived()` first and then `Base()` yields the *same* instance
(identity `0`) from both calls — and that instance's concrete class is
`Derived` (class `1`), so `Base()`'s result is not distinct from
`Derived()`'s. -/
theorem c3_child_first_order_shares_one_instance :
    c3Call1.2 = Except.ok 0 ∧ c3Call2.2 = Except.ok 0 ∧
    (getInst c3Call2.1 0).cls = 1 :=
  ⟨rfl, rfl, rfl⟩

/-!
## C5: subclass rejection under `allow_subclass=False`
-/

/-- Parent `np` decorated with `allow_subclass=False` (any `thread_safe`,
`allow_reassignment`), subclass `ns`, decorated bare (`sub = true`) or not
decorated at all (`sub = false`). -/
def c5Setup (np ns : String) (ts ar sub : Bool) : World :=
  let w1 := (declareClass emptyWorld np none none).1
  let w2 := (singletonDecorate w1 ts false ar (.cls 0)).1
  let w3 := (declareClass w2 ns (some 0) none).1
  if sub then (singletonDecorate w3 false false false (.cls 1)).1 else w3

/-- C5: confirmed.  For every parent/subclass name, every parent
configuration with `allow_subclass=False`, whether or not the subclass is
itself decorated, and any arguments, constructing the subclass raises
`TypeError("Singleton class <parent> cannot be inherited")` and leaves
the world — instances, slots, flags — exactly unchanged. -/
theorem c5_subclass_construction_rejected (np ns : String) (ts ar sub : Bool)
    (args : List Int) :
    typeCall 10 (c5Setup np ns ts ar sub) 1 args =
      (c5Setup np ns ts ar sub,
       Except.error ("Singleton class " ++ np ++ " cannot be inherited")) := by
  cases sub <;> cases ar <;> rfl

/-!
## C6: subclass-must-be-singleton under `allow_subclass=True`
-/

/-- Parent `np` decorated with `allow_subclass=True`; class `1` (`"Sub1"`)
an independently decorated subclass; class `2` (`ns2`) a subclass that was
never decorated, thus inheriting `np`'s marker. -/
def c6Setup (np ns2 : String) (ts ar : Bool) : World :=
  let w1 := (declareClass emptyWorld np none none).1
  let w2 := (singletonDecorate w1 ts true ar (.cls 0)).1
  let w3 := (declareClass w2 "Sub1" (some 0) none).1
  let w4 := (singletonDecorate w3 false false false (.cls 1)).1
  (declareClass w4 ns2 (some 0) none).1

/-- C6: confirmed.  Constructing the undecorated subclass (class `2`,
whose inherited record says `np ≠ ns2`) raises `TypeError("Subclass <ns2>
must also be a singleton")` with no side effect; constructing the
independently decorated subclass (class `1`, whose own record matches its
own name) succeeds and returns a fresh instance. -/
theorem c6_subclass_must_be_singleton (np ns2 : String) (ts ar : Bool)
    (h : ns2 ≠ np) :
    (typeCall 10 (c6Setup np ns2 ts ar) 2 [] =
      (c6Setup np ns2 ts ar,
       Except.error ("Subclass " ++ ns2 ++ " must also be a singleton"))) ∧
    (typeCall 10 (c6Setup np ns2 ts ar) 1 []).2 = Except.ok 0 := by
  constructor
  · cases ar <;>
      exact typeCall_subclass_not_singleton 9 _ 2 0 [] rfl
        (by decide : (2 : Nat) ≠ 0) rfl
        ((Option.some_injective String).ne (Ne.symm h))
  · cases ar <;> rfl

/-- Witness for C6 at concrete names. -/
theorem c6_subclass_must_be_singleton_witness :
    ("Child" : String) ≠ "Parent" ∧
    (typeCall 10 (c6Setup "Parent" "Child" false false) 2 [] =
      (c6Setup "Parent" "Child" false false,
       Except.error ("Subclass " ++ "Child" ++ " must also be a singleton"))) :=
  ⟨by decide, (c6_subclass_must_be_singleton "Parent" "Child" false false
    (by decide)).1⟩

/-!
## C7: `is_singleton` classification
-/

/-- Class `0`: a plain class `nu`, never decorated.  Class `1`: `np`,
decorated with `allow_subclass=True`.  Class `2`: `"Sub1"`, a subclass of
`np` that is independently decorated.  Class `3`: `ns2`, a subclass of
`np` that is not decorated. -/
def c7Setup (nu np ns2 : String) (ts ar : Bool) : World :=
  let w1 := (declareClass emptyWorld nu none none).1
  let w2 := (declareClass w1 np none none).1
  let w3 := (singletonDecorate w2 ts true ar (.cls 1)).1
  let w4 := (declareClass w3 "Sub1" (some 1) none).1
  let w5 := (singletonDecorate w4 false false false (.cls 2)).1
  (declareClass w5 ns2 (some 1) none).1

/-- C7: confirmed.  `is_singleton` is false on non-class values, false on
a class with no marker anywhere in its mro, true on a decorated class and
on an independently decorated subclass (own marker equals own name), and
false on a subclass that merely inherits its ancestor's marker (inherited
marker `np` differs from its own name `ns2`). -/
theorem c7_is_singleton_classification (nu np ns2 : String) (ts ar : Bool)
    (h : ns2 ≠ np) (n : Int) :
    is_singleton (c7Setup nu np ns2 ts ar) (.intVal n) = false ∧
    is_singleton (c7Setup nu np ns2 ts ar) .func = false ∧
    is_singleton (c7Setup nu np ns2 ts ar) (.cls 0) = false ∧
    is_singleton (c7Setup nu np ns2 ts ar) (.cls 1) = true ∧
    is_singleton (c7Setup nu np ns2 ts ar) (.cls 2) = true ∧
    is_singleton (c7Setup nu np ns2 ts ar) (.cls 3) = false := by
  refine ⟨rfl, rfl, ?_, ?_, ?_, ?_⟩
  · cases ar <;> rfl
  · cases ar <;> exact beq_self_eq_true np
  · cases ar <;> rfl
  · cases ar <;> exact beq_eq_false_iff_ne.mpr (Ne.symm h)

/-- Witness for C7 at concrete names. -/
theorem c7_is_singleton_classification_witness :
    ("Child" : String) ≠ "Parent" ∧
    is_singleton (c7Setup "Plain" "Parent" "Child" false false) (.cls 1) = true ∧
    is_singleton (c7Setup "Plain" "Parent" "Child" false false) (.cls 3) = false :=
  ⟨by decide,
   (c7_is_singleton_classification "Plain" "Parent" "Child" false false
     (by decide) 0).2.2.2.1,
   (c7_is_singleton_classification "Plain" "Parent" "Child" false false
     (by decide) 0).2.2.2.2.2⟩

/-!
## C10: the marker stores a name string, not a type identity
-/

/-- Parent `np` decorated with `allow_subclass=True`; class `1` a
subclass that is *never* decorated but is declared with the very same
name `np`, so the marker it inherits equals its own name. -/
def c10Setup (np : String) (ts ar : Bool) : World :=
  let w1 := (declareClass emptyWorld np none none).1
  let w2 := (singletonDecorate w1 ts true ar (.cls 0)).1
  (declareClass w2 np (some 0) none).1

/-- C10: confirmed.  For every name `np`, the undecorated same-named
subclass (class `1`, a distinct type identity from class `0`) satisfies
`is_singleton`, and constructing it passes the subclass check and
produces a fresh instance of class `1` — the checks compare name
strings, not type identities. -/
theorem c10_marker_is_name_based (np : String) (ts ar : Bool) :
    is_singleton (c10Setup np ts ar) (.cls 1) = true ∧
    (typeCall 10 (c10Setup np ts ar) 1 []).2 = Except.ok 0 ∧
    (getInst (typeCall 10 (c10Setup np ts ar) 1 []).1 0).cls = 1 := by
  cases ar with
  | false =>
    refine ⟨beq_self_eq_true np, ?_, ?_⟩ <;>
    · rw [show typeCall 10 (c10Setup np ts false) 1 [] = _ from
        typeCall_subclass_allowed 9 (c10Setup np ts false) 1 0 [] rfl
          (by decide : (1 : Nat) ≠ 0) rfl rfl]
      rfl
  | true =>
    refine ⟨beq_self_eq_true np, ?_, ?_⟩ <;>
    · rw [show typeCall 10 (c10Setup np ts true) 1 [] = _ from
        typeCall_subclass_allowed 9 (c10Setup np ts true) 1 0 [] rfl
          (by decide : (1 : Nat) ≠ 0) rfl rfl]
      rfl

/-!
## C8: decoration of a non-class value
-/

/-- C8: confirmed.  In every world and under every configuration,
applying the decorator to a non-class value (a plain function, or any
other non-class object) fails with `TypeError("singleton decorator can
only be applied to classes")` and performs no mutation at all: no cell is
allocated, no interception installed, no marker written. -/
theorem c8_invalid_target_rejected (w : World) (ts asub ar : Bool) (n : Int) :
    singletonDecorate w ts asub ar .func =
      (w, Except.error "singleton decorator can only be applied to classes") ∧
    singletonDecorate w ts asub ar (.intVal n) =
      (w, Except.error "singleton decorator can only be applied to classes") :=
  ⟨rfl, rfl⟩

/-!
## C4: reassignment semantics

A single class `nm` with a user-written `__init__` behaviour `f`,
decorated under an arbitrary configuration.  `c4SteadyWorld` describes
the state after the first construction call: one cell whose slot holds
instance `0`, and the instance's fields.  With `allow_reassignment=True`
the class keeps its own `__init__` (so `f` runs on every call); with it
`False` the gating `__init__` is installed and `_is_initialized` is set
after the first call.
-/

def c4InitWorld (f : InitFun) (ts asub r : Bool) (nm : String) : World :=
  let p := declareClass emptyWorld nm none (some f)
  (singletonDecorate p.1 ts asub r (.cls p.2)).1

def c4SteadyWorld (f : InitFun) (ts asub r : Bool) (nm : String) (st : List Int) :
    World :=
  { classes := [⟨nm, [0], some (.decorated 0),
      some (if r then InitAttr.userInit f else InitAttr.decorated 0), some nm⟩],
    cells := [⟨⟨ts, asub, r⟩, 0, .objectNew, .userInit f, some 0, !r⟩],
    insts := [⟨0, st⟩] }

/-- The first construction call creates instance `0`, runs `f` on it with
the call's arguments, and reaches the steady state. -/
theorem c4_first_call (f : InitFun) (ts asub r : Bool) (nm : String) (a : List Int) :
    typeCall 10 (c4InitWorld f ts asub r nm) 0 a =
      (c4SteadyWorld f ts asub r nm (f a []), Except.ok 0) := by
  cases r <;> cases ts <;> rfl

/-- With `allow_reassignment=True`, every later construction call returns
instance `0` again and re-runs `f` with the new arguments. -/
theorem c4_later_call_reassign (f : InitFun) (ts asub : Bool) (nm : String)
    (st : List Int) (b : List Int) :
    typeCall 10 (c4SteadyWorld f ts asub true nm st) 0 b =
      (c4SteadyWorld f ts asub true nm (f b st), Except.ok 0) := rfl

/-- With `allow_reassignment=False`, every later construction call returns
instance `0` again and leaves the whole state untouched. -/
theorem c4_later_call_no_reassign (f : InitFun) (ts asub : Bool) (nm : String)
    (st : List Int) (b : List Int) :
    typeCall 10 (c4SteadyWorld f ts asub false nm st) 0 b =
      (c4SteadyWorld f ts asub false nm st, Except.ok 0) := rfl

theorem c4_runCalls_steady (f : InitFun) (ts asub : Bool) (nm : String) :
    ∀ (rest : List (List Int)) (st : List Int),
    (runCalls 10 (c4SteadyWorld f ts asub true nm st) 0 rest =
      (c4SteadyWorld f ts asub true nm (rest.foldl (fun s b => f b s) st),
       rest.map (fun _ => Except.ok 0))) ∧
    (runCalls 10 (c4SteadyWorld f ts asub false nm st) 0 rest =
      (c4SteadyWorld f ts asub false nm st,
       rest.map (fun _ => Except.ok 0))) := by
  intro rest
  induction rest with
  | nil => exact fun st => ⟨rfl, rfl⟩
  | cons b rest ih =>
    intro st
    constructor
    · have h1 := c4_later_call_reassign f ts asub nm st b
      simp only [runCalls, h1]
      rw [(ih (f b st)).1]
      rfl
    · have h1 := c4_later_call_no_reassign f ts asub nm st b
      simp only [runCalls, h1]
      rw [(ih st).2]
      rfl

/-- C4: confirmed.  For every initialization behaviour `f`, name, and
`thread_safe`/`allow_subclass` options, and every non-empty sequence of
construction calls with arguments `a, rest...`:

* with `allow_reassignment=True` every call returns instance `0` and the
  final state is `f` folded over *all* the calls' arguments — the
  original initialization re-ran each time on the same instance;
* with `allow_reassignment=False` every call still returns instance `0`
  with no error, but the final state is `f a []` — only the first call's
  arguments ever took effect. -/
theorem c4_reassignment_semantics (f : InitFun) (ts asub : Bool) (nm : String)
    (a : List Int) (rest : List (List Int)) :
    (runCalls 10 (c4InitWorld f ts asub true nm) 0 (a :: rest) =
      (c4SteadyWorld f ts asub true nm (rest.foldl (fun s b => f b s) (f a [])),
       (a :: rest).map (fun _ => Except.ok 0))) ∧
    (runCalls 10 (c4InitWorld f ts asub false nm) 0 (a :: rest) =
      (c4SteadyWorld f ts asub false nm (f a []),
       (a :: rest).map (fun _ => Except.ok 0))) := by
  constructor
  · have h1 := c4_first_call f ts asub true nm a
    simp only [runCalls, h1]
    rw [(c4_runCalls_steady f ts asub nm rest (f a [])).1]
    rfl
  · have h1 := c4_first_call f ts asub false nm a
    simp only [runCalls, h1]
    rw [(c4_runCalls_steady f ts asub nm rest (f a [])).2]
    rfl

/-!
## C9: thread-safe double-checked locking (lines 198-208)

Concurrency is modelled by an interleaving semantics: each thread runs
the body of the decorated `__new__` for a first-ever construction call on
the originally-decorated class with `thread_safe=True`, and a scheduler
interleaves their atomic steps.  The shared state is the `_instance` slot
and the `_lock`; each thread's program counter walks the source lines:

* `start` — about to perform the unlocked emptiness check (line 198);
* `waiting` — saw the slot empty, about to enter `with _lock` (line 200);
* `inLock1` — holds the lock, about to re-check the slot (line 202);
* `constructing iid` — holds the lock, the original construction logic
  has run and produced the fully constructed instance `iid` (line 203,
  right-hand side);
* `inLock2` — holds the lock, past the guarded block;
* `ready` — about to read and return `_instance` (line 208);
* `done v` — returned instance `v`.

`createdBy` records which threads executed the original construction
logic; the slot is only ever written with a fully constructed instance
(the `publish` step, the assignment of line 203).
-/

inductive TState where
  | start
  | waiting
  | inLock1
  | constructing : Nat → TState
  | inLock2
  | ready
  | done : Nat → TState
deriving DecidableEq, Repr

structure CState where
  slot : Option Nat
  lockHolder : Option Nat
  nextId : Nat
  createdBy : List Nat
  threads : Nat → TState

def initC : CState := ⟨none, none, 0, [], fun _ => .start⟩

inductive CStep : CState → CState → Prop where
  | fastHit (s : CState) (i v : Nat) :
      s.threads i = .start → s.slot = some v →
      CStep s { s with threads := Function.update s.threads i .ready }
  | fastMiss (s : CState) (i : Nat) :
      s.threads i = .start → s.slot = none →
      CStep s { s with threads := Function.update s.threads i .waiting }
  | acquire (s : CState) (i : Nat) :
      s.threads i = .waiting → s.lockHolder = none →
      CStep s { s with lockHolder := some i,
                       threads := Function.update s.threads i .inLock1 }
  | recheckEmpty (s : CState) (i : Nat) :
      s.threads i = .inLock1 → s.slot = none →
      CStep s { s with nextId := s.nextId + 1,
                       createdBy := s.createdBy ++ [i],
                       threads := Function.update s.threads i (.constructing s.nextId) }
  | recheckFull (s : CState) (i v : Nat) :
      s.threads i = .inLock1 → s.slot = some v →
      CStep s { s with threads := Function.update s.threads i .inLock2 }
  | publish (s : CState) (i iid : Nat) :
      s.threads i = .constructing iid →
      CStep s { s with slot := some iid,
                       threads := Function.update s.threads i .inLock2 }
  | release (s : CState) (i : Nat) :
      s.threads i = .inLock2 →
      CStep s { s with lockHolder := none,
                       threads := Function.update s.threads i .ready }
  | finish (s : CState) (i v : Nat) :
      s.threads i = .ready → s.slot = some v →
      CStep s { s with threads := Function.update s.threads i (.done v) }

def ReachableC (s : CState) : Prop := Relation.ReflTransGen CStep initC s

def inCS : TState → Prop
  | .inLock1 => True
  | .constructing _ => True
  | .inLock2 => True
  | _ => False

structure CInv (s : CState) : Prop where
  lockOwner : ∀ i, inCS (s.threads i) → s.lockHolder = some i
  nextEq : s.nextId = s.createdBy.length
  slotZero : ∀ v, s.slot = some v → v = 0 ∧ s.createdBy.length = 1
  constructingZero : ∀ i iid, s.threads i = .constructing iid →
      iid = 0 ∧ s.slot = none ∧ s.createdBy = [i]
  createdSource : s.createdBy ≠ [] →
      s.slot = some 0 ∨ ∃ i, s.threads i = .constructing 0
  inLock2Slot : ∀ i, s.threads i = .inLock2 → s.slot = some 0
  readySlot : ∀ i, s.threads i = .ready → s.slot = some 0
  doneSlot : ∀ i v, s.threads i = .done v → v = 0 ∧ s.slot = some 0

theorem cinv_init : CInv initC := by
  refine ⟨?_, rfl, ?_, ?_, ?_, ?_, ?_, ?_⟩
  · intro i h; exact h.elim
  · intro v h; exact Option.noConfusion h
  · intro i iid h; exact TState.noConfusion h
  · intro h; exact absurd rfl h
  · intro i h; exact TState.noConfusion h
  · intro i h; exact TState.noConfusion h
  · intro i v h; exact TState.noConfusion h

theorem cinv_step {s s' : CState} (hinv : CInv s) (hstep : CStep s s') : CInv s' := by
  cases hstep with
  | fastHit i v hti hslot =>
    obtain ⟨hv0, _⟩ := hinv.slotZero v hslot
    subst hv0
    refine ⟨?_, hinv.nextEq, hinv.slotZero, ?_, ?_, ?_, ?_, ?_⟩
    · intro j h
      rcases eq_or_ne j i with rfl | hj
      · simp only [Function.update_same] at h; exact h.elim
      · simp only [Function.update_noteq hj] at h; exact hinv.lockOwner j h
    · intro j iid h
      rcases eq_or_ne j i with rfl | hj
      · simp only [Function.update_same] at h; exact TState.noConfusion h
      · simp only [Function.update_noteq hj] at h; exact hinv.constructingZero j iid h
    · intro hne
      rcases hinv.createdSource hne with h1 | ⟨j, hj⟩
      · exact Or.inl h1
      · refine Or.inr ⟨j, ?_⟩
        rcases eq_or_ne j i with rfl | hne'
        · rw [hti] at hj; exact TState.noConfusion hj
        · exact (Function.update_noteq hne' _ _).trans hj
    · intro j h
      rcases eq_or_ne j i with rfl | hj
      · simp only [Function.update_same] at h; exact TState.noConfusion h
      · simp only [Function.update_noteq hj] at h; exact hinv.inLock2Slot j h
    · intro j h
      rcases eq_or_ne j i with rfl | hj
      · exact hslot
      · simp only [Function.update_noteq hj] at h; exact hinv.readySlot j h
    · intro j v' h
      rcases eq_or_ne j i with rfl | hj
      · simp only [Function.update_same] at h; exact TState.noConfusion h
      · simp only [Function.update_noteq hj] at h; exact hinv.doneSlot j v' h
  | fastMiss i hti hslot =>
    refine ⟨?_, hinv.nextEq, hinv.slotZero, ?_, ?_, ?_, ?_, ?_⟩
    · intro j h
      rcases eq_or_ne j i with rfl | hj
      · simp only [Function.update_same] at h; exact h.elim
      · simp only [Function.update_noteq hj] at h; exact hinv.lockOwner j h
    · intro j iid h
      rcases eq_or_ne j i with rfl | hj
      · simp only [Function.update_same] at h; exact TState.noConfusion h
      · simp only [Function.update_noteq hj] at h; exact hinv.constructingZero j iid h
    · intro hne
      rcases hinv.createdSource hne with h1 | ⟨j, hj⟩
      · exact Or.inl h1
      · refine Or.inr ⟨j, ?_⟩
        rcases eq_or_ne j i with rfl | hne'
        · rw [hti] at hj; exact TState.noConfusion hj
        · exact (Function.update_noteq hne' _ _).trans hj
    · intro j h
      rcases eq_or_ne j i with rfl | hj
      · simp only [Function.update_same] at h; exact TState.noConfusion h
      · simp only [Function.update_noteq hj] at h; exact hinv.inLock2Slot j h
    · intro j h
      rcases eq_or_ne j i with rfl | hj
      · simp only [Function.update_same] at h; exact TState.noConfusion h
      · simp only [Function.update_noteq hj] at h; exact hinv.readySlot j h
    · intro j v' h
      rcases eq_or_ne j i with rfl | hj
      · simp only [Function.update_same] at h; exact TState.noConfusion h
      · simp only [Function.update_noteq hj] at h; exact hinv.doneSlot j v' h
  | acquire i hti hlock =>
    have hnoCS : ∀ j, ¬ inCS (s.threads j) := by
      intro j hj
      have h2 := hinv.lockOwner j hj
      rw [hlock] at h2
      exact Option.noConfusion h2
    refine ⟨?_, hinv.nextEq, hinv.slotZero, ?_, ?_, ?_, ?_, ?_⟩
    · intro j h
      rcases eq_or_ne j i with rfl | hj
      · rfl
      · simp only [Function.update_noteq hj] at h; exact absurd h (hnoCS j)
    · intro j iid h
      rcases eq_or_ne j i with rfl | hj
      · simp only [Function.update_same] at h; exact TState.noConfusion h
      · simp only [Function.update_noteq hj] at h
        exact absurd (show inCS (s.threads j) by rw [h]; trivial) (hnoCS j)
    · intro hne
      rcases hinv.createdSource hne with h1 | ⟨j, hj⟩
      · exact Or.inl h1
      · exact absurd (show inCS (s.threads j) by rw [hj]; trivial) (hnoCS j)
    · intro j h
      rcases eq_or_ne j i with rfl | hj
      · simp only [Function.update_same] at h; exact TState.noConfusion h
      · simp only [Function.update_noteq hj] at h
        exact absurd (show inCS (s.threads j) by rw [h]; trivial) (hnoCS j)
    · intro j h
      rcases eq_or_ne j i with rfl | hj
      · simp only [Function.update_same] at h; exact TState.noConfusion h
      · simp only [Function.update_noteq hj] at h; exact hinv.readySlot j h
    · intro j v' h
      rcases eq_or_ne j i with rfl | hj
      · simp only [Function.update_same] at h; exact TState.noConfusion h
      · simp only [Function.update_noteq hj] at h; exact hinv.doneSlot j v' h
  | recheckEmpty i hti hslot =>
    have hholder : s.lockHolder = some i := hinv.lockOwner i (by rw [hti]; trivial)
    have hempty : s.createdBy = [] := by
      by_contra hne
      rcases hinv.createdSource hne with h1 | ⟨j, hj⟩
      · exact Option.noConfusion (hslot.symm.trans h1)
      · have hjh := hinv.lockOwner j (by rw [hj]; trivial)
        rw [hholder] at hjh
        have hij : i = j := Option.some.inj hjh
        subst hij
        rw [hti] at hj; exact TState.noConfusion hj
    have hnext : s.nextId = 0 := by rw [hinv.nextEq, hempty]; rfl
    refine ⟨?_, ?_, ?_, ?_, ?_, ?_, ?_, ?_⟩
    · intro j h
      rcases eq_or_ne j i with rfl | hj
      · exact hholder
      · simp only [Function.update_noteq hj] at h; exact hinv.lockOwner j h
    · show s.nextId + 1 = (s.createdBy ++ [i]).length
      rw [hempty, hnext]
      rfl
    · intro v h
      exact Option.noConfusion (hslot.symm.trans (h : s.slot = some v))
    · intro j iid h
      rcases eq_or_ne j i with rfl | hj
      · simp only [Function.update_same] at h
        have hn : s.nextId = iid := TState.constructing.inj h
        refine ⟨by rw [← hn, hnext], hslot, ?_⟩
        show s.createdBy ++ [j] = [j]
        rw [hempty]; rfl
      · simp only [Function.update_noteq hj] at h
        have h2 := (hinv.constructingZero j iid h).2.2
        rw [hempty] at h2; exact List.noConfusion h2
    · intro _
      refine Or.inr ⟨i, ?_⟩
      show Function.update s.threads i (TState.constructing s.nextId) i =
        TState.constructing 0
      rw [Function.update_same, hnext]
    · intro j h
      rcases eq_or_ne j i with rfl | hj
      · simp only [Function.update_same] at h; exact TState.noConfusion h
      · simp only [Function.update_noteq hj] at h
        exact Option.noConfusion (hslot.symm.trans (hinv.inLock2Slot j h))
    · intro j h
      rcases eq_or_ne j i with rfl | hj
      · simp only [Function.update_same] at h; exact TState.noConfusion h
      · simp only [Function.update_noteq hj] at h
        exact Option.noConfusion (hslot.symm.trans (hinv.readySlot j h))
    · intro j v' h
      rcases eq_or_ne j i with rfl | hj
      · simp only [Function.update_same] at h; exact TState.noConfusion h
      · simp only [Function.update_noteq hj] at h
        exact Option.noConfusion (hslot.symm.trans ((hinv.doneSlot j v' h).2))
  | recheckFull i v hti hslot =>
    obtain ⟨hv0, _⟩ := hinv.slotZero v hslot
    subst hv0
    refine ⟨?_, hinv.nextEq, hinv.slotZero, ?_, ?_, ?_, ?_, ?_⟩
    · intro j h
      rcases eq_or_ne j i with rfl | hj
      · exact hinv.lockOwner j (by rw [hti]; trivial)
      · simp only [Function.update_noteq hj] at h; exact hinv.lockOwner j h
    · intro j iid h
      rcases eq_or_ne j i with rfl | hj
      · simp only [Function.update_same] at h; exact TState.noConfusion h
      · simp only [Function.update_noteq hj] at h; exact hinv.constructingZero j iid h
    · intro hne
      rcases hinv.createdSource hne with h1 | ⟨j, hj⟩
      · exact Or.inl h1
      · refine Or.inr ⟨j, ?_⟩
        rcases eq_or_ne j i with rfl | hne'
        · rw [hti] at hj; exact TState.noConfusion hj
        · exact (Function.update_noteq hne' _ _).trans hj
    · intro j h
      rcases eq_or_ne j i with rfl | hj
      · exact hslot
      · simp only [Function.update_noteq hj] at h; exact hinv.inLock2Slot j h
    · intro j h
      rcases eq_or_ne j i with rfl | hj
      · simp only [Function.update_same] at h; exact TState.noConfusion h
      · simp only [Function.update_noteq hj] at h; exact hinv.readySlot j h
    · intro j v' h
      rcases eq_or_ne j i with rfl | hj
      · simp only [Function.update_same] at h; exact TState.noConfusion h
      · simp only [Function.update_noteq hj] at h; exact hinv.doneSlot j v' h
  | publish i iid hti =>
    obtain ⟨hiid, hslot, hcreated⟩ := hinv.constructingZero i iid hti
    subst hiid
    refine ⟨?_, hinv.nextEq, ?_, ?_, ?_, ?_, ?_, ?_⟩
    · intro j h
      rcases eq_or_ne j i with rfl | hj
      · exact hinv.lockOwner j (by rw [hti]; trivial)
      · simp only [Function.update_noteq hj] at h; exact hinv.lockOwner j h
    · intro v h
      have hv : some (0 : Nat) = some v := h
      have hv2 : (0 : Nat) = v := Option.some.inj hv
      refine ⟨hv2.symm, ?_⟩
      simp [hcreated]
    · intro j iid' h
      rcases eq_or_ne j i with rfl | hj
      · simp only [Function.update_same] at h; exact TState.noConfusion h
      · simp only [Function.update_noteq hj] at h
        have h2 := (hinv.constructingZero j iid' h).2.2
        rw [hcreated] at h2
        exact absurd (List.cons.inj h2).1 hj.symm
    · intro _
      exact Or.inl rfl
    · intro j _
      rfl
    · intro j h
      rcases eq_or_ne j i with rfl | hj
      · simp only [Function.update_same] at h; exact TState.noConfusion h
      · simp only [Function.update_noteq hj] at h
        exact Option.noConfusion (hslot.symm.trans (hinv.readySlot j h))
    · intro j v' h
      rcases eq_or_ne j i with rfl | hj
      · simp only [Function.update_same] at h; exact TState.noConfusion h
      · simp only [Function.update_noteq hj] at h
        exact Option.noConfusion (hslot.symm.trans ((hinv.doneSlot j v' h).2))
  | release i hti =>
    have hi : s.lockHolder = some i := hinv.lockOwner i (by rw [hti]; trivial)
    refine ⟨?_, hinv.nextEq, hinv.slotZero, ?_, ?_, ?_, ?_, ?_⟩
    · intro j h
      rcases eq_or_ne j i with rfl | hj
      · simp only [Function.update_same] at h; exact h.elim
      · simp only [Function.update_noteq hj] at h
        have hjh := hinv.lockOwner j h
        have hij : i = j := Option.some.inj (hi.symm.trans hjh)
        exact absurd hij.symm hj
    · intro j iid h
      rcases eq_or_ne j i with rfl | hj
      · simp only [Function.update_same] at h; exact TState.noConfusion h
      · simp only [Function.update_noteq hj] at h; exact hinv.constructingZero j iid h
    · intro hne
      rcases hinv.createdSource hne with h1 | ⟨j, hj⟩
      · exact Or.inl h1
      · refine Or.inr ⟨j, ?_⟩
        rcases eq_or_ne j i with rfl | hne'
        · rw [hti] at hj; exact TState.noConfusion hj
        · exact (Function.update_noteq hne' _ _).trans hj
    · intro j h
      rcases eq_or_ne j i with rfl | hj
      · simp only [Function.update_same] at h; exact TState.noConfusion h
      · simp only [Function.update_noteq hj] at h; exact hinv.inLock2Slot j h
    · intro j h
      rcases eq_or_ne j i with rfl | hj
      · exact hinv.inLock2Slot _ hti
      · simp only [Function.update_noteq hj] at h; exact hinv.readySlot j h
    · intro j v' h
      rcases eq_or_ne j i with rfl | hj
      · simp only [Function.update_same] at h; exact TState.noConfusion h
      · simp only [Function.update_noteq hj] at h; exact hinv.doneSlot j v' h
  | finish i v hti hslot =>
    obtain ⟨hv0, _⟩ := hinv.slotZero v hslot
    subst hv0
    refine ⟨?_, hinv.nextEq, hinv.slotZero, ?_, ?_, ?_, ?_, ?_⟩
    · intro j h
      rcases eq_or_ne j i with rfl | hj
      · simp only [Function.update_same] at h; exact h.elim
      · simp only [Function.update_noteq hj] at h; exact hinv.lockOwner j h
    · intro j iid h
      rcases eq_or_ne j i with rfl | hj
      · simp only [Function.update_same] at h; exact TState.noConfusion h
      · simp only [Function.update_noteq hj] at h; exact hinv.constructingZero j iid h
    · intro hne
      rcases hinv.createdSource hne with h1 | ⟨j, hj⟩
      · exact Or.inl h1
      · refine Or.inr ⟨j, ?_⟩
        rcases eq_or_ne j i with rfl | hne'
        · rw [hti] at hj; exact TState.noConfusion hj
        · exact (Function.update_noteq hne' _ _).trans hj
    · intro j h
      rcases eq_or_ne j i with rfl | hj
      · simp only [Function.update_same] at h; exact TState.noConfusion h
      · simp only [Function.update_noteq hj] at h; exact hinv.inLock2Slot j h
    · intro j h
      rcases eq_or_ne j i with rfl | hj
      · simp only [Function.update_same] at h; exact TState.noConfusion h
      · simp only [Function.update_noteq hj] at h; exact hinv.readySlot j h
    · intro j v' h
      rcases eq_or_ne j i with rfl | hj
      · simp only [Function.update_same] at h
        have hv : v' = 0 := (TState.done.inj h).symm
        exact ⟨hv, hslot⟩
      · simp only [Function.update_noteq hj] at h; exact hinv.doneSlot j v' h

theorem cinv_reachable {s : CState} (h : ReachableC s) : CInv s := by
  induction h with
  | refl => exact cinv_init
  | tail _ hstep ih => exact cinv_step ih hstep



/-- C9: confirmed.  In every state reachable by any interleaving of any
number of threads performing a first-time construction under
`thread_safe=True`: at most one thread ever executes the original
construction logic; every thread that has returned got instance `0`, the
unique published, fully-constructed instance; all returned values agree;
and once any caller has returned, exactly one execution of the original
construction logic has happened. -/
theorem c9_thread_safe_single_construction (s : CState) (hs : ReachableC s) :
    s.createdBy.length ≤ 1 ∧
    (∀ i v, s.threads i = .done v → v = 0 ∧ s.slot = some 0) ∧
    (∀ i j v v', s.threads i = .done v → s.threads j = .done v' → v = v') ∧
    ((∃ i v, s.threads i = .done v) → s.createdBy.length = 1) := by
  have hinv := cinv_reachable hs
  refine ⟨?_, ?_, ?_, ?_⟩
  · by_cases hne : s.createdBy = []
    · simp [hne]
    · rcases hinv.createdSource hne with h1 | ⟨j, hj⟩
      · exact le_of_eq (hinv.slotZero 0 h1).2
      · rw [(hinv.constructingZero j 0 hj).2.2]
        exact le_refl 1
  · exact hinv.doneSlot
  · intro i j v v' h h'
    rw [(hinv.doneSlot i v h).1, (hinv.doneSlot j v' h').1]
  · rintro ⟨i, v, h⟩
    exact (hinv.slotZero 0 (hinv.doneSlot i v h).2).2

/-- The state reached by one thread running the whole path
`start → waiting → inLock1 → constructing → inLock2 → ready → done`. -/
def c9FinalState : CState :=
  { slot := some 0, lockHolder := none, nextId := 1, createdBy := [0],
    threads := Function.update (Function.update (Function.update (Function.update
      (Function.update (Function.update (fun _ => TState.start) 0 .waiting) 0
        .inLock1) 0 (.constructing 0)) 0 .inLock2) 0 .ready) 0 (.done 0) }

/-- Witness for C9: a concrete one-thread execution reaching `done 0`,
with exactly one construction. -/
theorem c9_witness_final : ReachableC c9FinalState ∧
    c9FinalState.threads 0 = TState.done 0 ∧ c9FinalState.createdBy.length = 1 := by
  have r1 : ReachableC _ :=
    Relation.ReflTransGen.tail Relation.ReflTransGen.refl
      (CStep.fastMiss initC 0 rfl rfl)
  have r2 : ReachableC _ :=
    Relation.ReflTransGen.tail r1 (CStep.acquire _ 0 rfl rfl)
  have r3 : ReachableC _ :=
    Relation.ReflTransGen.tail r2 (CStep.recheckEmpty _ 0 rfl rfl)
  have r4 : ReachableC _ :=
    Relation.ReflTransGen.tail r3 (CStep.publish _ 0 0 rfl)
  have r5 : ReachableC _ :=
    Relation.ReflTransGen.tail r4 (CStep.release _ 0 rfl)
  have hr : ReachableC c9FinalState :=
    Relation.ReflTransGen.tail r5 (CStep.finish _ 0 0 rfl rfl)
  exact ⟨hr, rfl,
    (c9_thread_safe_single_construction c9FinalState hr).2.2.2 ⟨0, 0, rfl⟩⟩

end SimpleSingleton
